import Mathlib

/-!
# lokalstack: the X-Ray test daemon (`daemon.go`) and the DynamoDB table helper (`main/functions.go`)

A shallow embedding of `TestDaemon` (its drain loop `run`, `Recv`, `Close`, and the
constructor `NewTestDaemon`), of `NewTable` / `AddTTL` and `NewS3BucketObject`, and of
`CreatePortBindings` and the readiness probes of `container.go`.

Conventions.
* Bytes are natural numbers; the newline byte `'\n'` is `10`.
* A Go pointer that may be `nil` is an `Option`.
* Library calls whose code is outside the repository (`encoding/json`, `net`, the AWS SDK
  clients) are parameters of the definitions that call them.
* A goroutine blocked in a `select` with no ready case, a `return` and a run-time panic are
  explicit constructors of the loop's state.
-/

namespace Lokalstack

/-! ## Data model -/

/-- Go `error` values the code handles.  `Canceled` and `DeadlineExceeded` are the two errors
a `context.Context` can report; every other error is produced by a library call. -/
inductive GoError where
  | Canceled
  | DeadlineExceeded
  | lib (msg : String)
  deriving DecidableEq, Repr

/-- The record `xray.Segment` of the X-Ray SDK: the fields the scenarios of the specification
name, and `Sampled`, the only field `daemon.go` writes. -/
structure Segment where
  ID : String
  TraceID : String
  Name : String
  Sampled : Bool
  deriving DecidableEq, Repr

/-- The struct `result` of `daemon.go`: `Segment *xray.Segment` and `Error error`. -/
structure result where
  Segment : Option Segment
  Error : Option GoError
  deriving DecidableEq, Repr

/-- The capacity of the mailbox: `make(chan *result, 200)`. -/
def chanCap : Nat := 200

/-- The length (and capacity) of the drain loop's buffer: `make([]byte, 64*1024)`. -/
def bufferSize : Nat := 64 * 1024

/-- The struct `TestDaemon`.  `ch` holds the results pending in the channel, oldest first.
`ctx`/`cancel` and `conn` are kept as the number of times `cancel()` and `conn.Close()` have
been invoked: `ctx` is derived from `context.Background()` and nothing but `cancel` ends it. -/
structure TestDaemon where
  ch : List result
  cancelCalls : Nat
  connCloseCalls : Nat
  closeOnce : Bool
  deriving DecidableEq, Repr

/-- Whether `<-td.ctx.Done()` is ready. -/
def TestDaemon.ctxDone (td : TestDaemon) : Bool := decide (0 < td.cancelCalls)

/-- What `td.conn.ReadFrom(buffer)` returns to the loop: a datagram, or a read error. -/
inductive ReadEvent where
  | datagram (bytes : List Nat)
  | failure (err : GoError)
  deriving DecidableEq, Repr

/-- The outcome of `json.Unmarshal(buffered, &seg)`: the error, or the value of `seg`
afterwards.  `seg` is a `*xray.Segment` decoded through `&seg`, so the JSON literal `null`
sets it to `nil` (`none`) without an error. -/
abbrev Unmarshal := List Nat → Except GoError (Option Segment)

/-! ## The drain loop -/

/-- The effect of `ReadFrom(buffer)` for a datagram: its first `n = min (len datagram)
(len buffer)` bytes overwrite the front of the buffer, the rest of the buffer is unchanged.
Returns `(n, buffer)`. -/
def readFrom : List Nat → List Nat → Nat × List Nat
  | _ :: bs, x :: xs => ((readFrom bs xs).1 + 1, x :: (readFrom bs xs).2)
  | bs, [] => (0, bs)
  | [], _ :: _ => (0, [])

/-- Auxiliary loop of `indexByte`: `i` is the position of the head of the list. -/
def indexByteFrom (c : Nat) : List Nat → Int → Int
  | [], _ => -1
  | b :: bs, i => if b = c then i else indexByteFrom c bs (i + 1)

/-- Go `bytes.IndexByte(b, c)`: the index of the first `c` in `b`, or `-1`. -/
def indexByte (b : List Nat) (c : Nat) : Int := indexByteFrom c b 0

/-- The slice expression `buffer[lo:hi]` on a slice whose capacity is its length, as the
buffer of `run` is: a run-time panic unless `0 <= lo <= hi <= cap(buffer)`. -/
def sliceBuffer (buffer : List Nat) (lo hi : Int) : Except String (List Nat) :=
  if 0 ≤ lo ∧ lo ≤ hi ∧ hi ≤ (buffer.length : Int) then
    .ok ((buffer.take hi.toNat).drop lo.toNat)
  else
    .error "slice bounds out of range"

/-- Where the goroutine running `run` stands. -/
inductive RunState where
  /-- At the head of the `for`, blocked in `ReadFrom`. -/
  | reading (td : TestDaemon) (buffer : List Nat)
  /-- Blocked in a `select`: the channel is full and the context is not done. -/
  | sending (td : TestDaemon) (buffer : List Nat) (r : result)
  /-- The `return` of a `case <-td.ctx.Done()`. -/
  | returned (td : TestDaemon)
  /-- A run-time panic. -/
  | panicked (td : TestDaemon) (msg : String)
  deriving DecidableEq, Repr

/-- The statement
`select { case c <- r: case <-td.ctx.Done(): return }` followed by the next iteration.
The send is ready when the channel has room, the receive when the context is done; when both
are ready Go picks one at random (`pick = true`: the send). -/
def deliver (td : TestDaemon) (buffer : List Nat) (r : result) (pick : Bool) : RunState :=
  let room := decide (td.ch.length < chanCap)
  match room, td.ctxDone with
  | true, false => .reading { td with ch := td.ch ++ [r] } buffer
  | false, true => .returned td
  | true, true => if pick then .reading { td with ch := td.ch ++ [r] } buffer else .returned td
  | false, false => .sending td buffer r

/-- One iteration of the `for` of `run`, on what `ReadFrom` returns. -/
def runIter (unmarshal : Unmarshal) (td : TestDaemon) (buffer : List Nat)
    (ev : ReadEvent) (pick : Bool) : RunState :=
  match ev with
  | .failure err => deliver td buffer ⟨none, some err⟩ pick
  | .datagram bytes =>
    let n := (readFrom buffer bytes).1
    let buffer := (readFrom buffer bytes).2
    let idx := indexByte buffer 10
    match sliceBuffer buffer (idx + 1) n with
    | .error msg => .panicked td msg
    | .ok buffered =>
      match unmarshal buffered with
      | .error err => deliver td buffer ⟨none, some err⟩ pick
      | .ok none => .panicked td "invalid memory address or nil pointer dereference"
      | .ok (some seg) => deliver td buffer ⟨some { seg with Sampled := true }, none⟩ pick

/-- The loop of `run` over the reads that complete, from a given buffer content.  Each read
comes with the random choice of the `select` it may reach. -/
def runFrom (unmarshal : Unmarshal) (td : TestDaemon) (buffer : List Nat) :
    List (ReadEvent × Bool) → RunState
  | [] => .reading td buffer
  | (ev, pick) :: rest =>
    match runIter unmarshal td buffer ev pick with
    | .reading td' buffer' => runFrom unmarshal td' buffer' rest
    | s => s

/-- `TestDaemon.run`: the buffer starts as `bufferSize` zero bytes. -/
def run (unmarshal : Unmarshal) (td : TestDaemon) (reads : List (ReadEvent × Bool)) : RunState :=
  runFrom unmarshal td (List.replicate bufferSize 0) reads

/-! ## `Recv` and `Close` -/

/-- `TestDaemon.Recv`, for a call during which the drain loop adds nothing to the channel and
whose `select` is reached before the 500 ms deadline.  The receive from `td.ch` is ready when
a result is pending; `ctx` (a `context.WithTimeout` child of `td.ctx`) is done at once with
`context.Canceled` when `td.ctx` is done, and otherwise only at the deadline, with
`context.DeadlineExceeded`.  When both cases are ready Go picks one at random
(`pick = true`: the receive).  Returns the two results and the receiver afterwards. -/
def Recv (td : TestDaemon) (pick : Bool) : (Option Segment × Option GoError) × TestDaemon :=
  match td.ch, td.ctxDone with
  | r :: rest, false => ((r.Segment, r.Error), { td with ch := rest })
  | r :: rest, true =>
    if pick then ((r.Segment, r.Error), { td with ch := rest })
    else ((none, some .Canceled), td)
  | [], true => ((none, some .Canceled), td)
  | [], false => ((none, some .DeadlineExceeded), td)

/-- `TestDaemon.Close`: `td.closeOnce.Do(func() { td.cancel(); td.conn.Close() })`. -/
def Close (td : TestDaemon) : TestDaemon :=
  if td.closeOnce then td
  else
    { td with
      closeOnce := true
      cancelCalls := td.cancelCalls + 1
      connCloseCalls := td.connCloseCalls + 1 }

/-! ## `NewTestDaemon` -/

/-- The `context.Context` values of `NewTestDaemon`, by the call that made them. -/
inductive Context where
  /-- `context.WithCancel(context.Background())`. -/
  | withCancel
  /-- A context returned by `xray.ContextWithConfig`. -/
  | withConfig
  /-- The context returned by `xray.BeginSegment(lambdacontext.NewContext(ctx, ...), ...)`. -/
  | withSegment
  deriving DecidableEq, Repr

/-- What the library calls of `NewTestDaemon` answer: the error of each (`none` is `nil`), and
for `xray.ContextWithConfig` also the context it returns. -/
structure Binds where
  listenUDP4 : Option GoError
  listenUDP6 : Option GoError
  newDefaultEmitter : Option GoError
  contextWithConfig : Option Context × Option GoError
  deriving DecidableEq, Repr

/-- What `NewTestDaemon` hands back when it returns: the named results `ctx` and `d`, and
whether `go d.run(c)` has been executed. -/
structure Constructed where
  ctx : Option Context
  d : Option TestDaemon
  running : Bool
  deriving DecidableEq, Repr

/-- A call either returns or panics. -/
inductive Outcome (α : Type) where
  | returned (a : α)
  | panicked (msg : String)
  deriving DecidableEq, Repr

/-- The value `&TestDaemon{ch: c, conn: conn, ctx: ctx, cancel: cancel}` built by
`NewTestDaemon`: an empty channel, nothing cancelled or closed. -/
def newDaemon : TestDaemon := ⟨[], 0, 0, false⟩

/-- `NewTestDaemon`. -/
def NewTestDaemon (env : Binds) : Outcome Constructed :=
  match env.listenUDP4 with
  | none =>
    match env.newDefaultEmitter with
    | none =>
      match env.contextWithConfig with
      | (_, none) => .returned ⟨some .withSegment, some newDaemon, true⟩
      | (ctx, some _) => .returned ⟨ctx, some newDaemon, true⟩
    | some _ => .panicked "xray: failed to created emitter:"
  | some _ =>
    match env.listenUDP6 with
    | some _ => .panicked "xray: failed to listen:"
    | none => .returned ⟨none, none, false⟩

/-! ## `NewTable` and `AddTTL` (`main/functions.go`) -/

structure AttributeDefinition where
  AttributeName : String
  AttributeType : String
  deriving DecidableEq, Repr

structure KeySchemaElement where
  AttributeName : String
  KeyType : String
  deriving DecidableEq, Repr

structure ProvisionedThroughput where
  ReadCapacityUnits : Int
  WriteCapacityUnits : Int
  deriving DecidableEq, Repr

structure Projection where
  ProjectionType : String
  deriving DecidableEq, Repr

structure GlobalSecondaryIndex where
  IndexName : String
  KeySchema : List KeySchemaElement
  ProvisionedThroughput : ProvisionedThroughput
  Projection : Projection
  deriving DecidableEq, Repr

structure LocalSecondaryIndex where
  IndexName : String
  KeySchema : List KeySchemaElement
  Projection : Projection
  deriving DecidableEq, Repr

/-- The record `dynamodb.CreateTableInput`; an index list that was not set is `none`. -/
structure CreateTableInput where
  TableName : String
  AttributeDefinitions : List AttributeDefinition
  KeySchema : List KeySchemaElement
  ProvisionedThroughput : ProvisionedThroughput
  GlobalSecondaryIndexes : Option (List GlobalSecondaryIndex)
  LocalSecondaryIndexes : Option (List LocalSecondaryIndex)
  deriving DecidableEq, Repr

structure TimeToLiveSpecification where
  AttributeName : String
  Enabled : Bool
  deriving DecidableEq, Repr

structure UpdateTimeToLiveInput where
  TableName : String
  TimeToLiveSpecification : TimeToLiveSpecification
  deriving DecidableEq, Repr

/-- The two operations of `services.DynamoDbClient()` that `NewTable` uses, as the error each
answers for a request (`none` is `nil`). -/
structure DynamoDbClient where
  CreateTableWithContext : Context → CreateTableInput → Option GoError
  UpdateTimeToLiveWithContext : Context → UpdateTimeToLiveInput → Option GoError

/-- What a call does to the outside, in order. -/
inductive Effect where
  | Println (line : String)
  | CreateTable (input : CreateTableInput)
  | UpdateTimeToLive (input : UpdateTimeToLiveInput)
  deriving DecidableEq, Repr

/-- `AddTTL`: the effects it performs and the error it returns. -/
def AddTTL (client : DynamoDbClient) (ctx : Context) (tableName attrName : String) :
    List Effect × Option GoError :=
  let ttlInput : UpdateTimeToLiveInput :=
    { TableName := tableName
      TimeToLiveSpecification := { AttributeName := attrName, Enabled := true } }
  ([.Println ("  - Adding TTL for " ++ tableName ++ "  table"), .UpdateTimeToLive ttlInput],
    client.UpdateTimeToLiveWithContext ctx ttlInput)

/-- The value of `input` in `NewTable` when `CreateTableWithContext` is called. -/
def newTableInput (tableName : String) (attrDefs : List AttributeDefinition)
    (keySchema : List KeySchemaElement) (global : List GlobalSecondaryIndex)
    (locals : List LocalSecondaryIndex) : CreateTableInput :=
  { TableName := tableName
    AttributeDefinitions := attrDefs
    KeySchema := keySchema
    ProvisionedThroughput := { ReadCapacityUnits := 2, WriteCapacityUnits := 2 }
    GlobalSecondaryIndexes := if global.length > 0 then some global else none
    LocalSecondaryIndexes := if locals.length > 0 then some locals else none }

/-- `NewTable`: the effects it performs and the error it returns. -/
def NewTable (client : DynamoDbClient) (ctx : Context) (tableName : String)
    (attrDefs : List AttributeDefinition) (keySchema : List KeySchemaElement)
    (global : List GlobalSecondaryIndex) (locals : List LocalSecondaryIndex)
    (ttlAttr : Option String) : List Effect × Option GoError :=
  let input := newTableInput tableName attrDefs keySchema global locals
  let effects : List Effect :=
    [.Println ("  - Creating " ++ tableName ++ " table for testing"), .CreateTable input]
  match client.CreateTableWithContext ctx input, ttlAttr with
  | none, some attr =>
    (effects ++ (AddTTL client ctx tableName attr).1, (AddTTL client ctx tableName attr).2)
  | err, _ => (effects, err)

/-- The TTL updates among the effects of a call, in order. -/
def ttlUpdates : List Effect → List UpdateTimeToLiveInput
  | [] => []
  | .UpdateTimeToLive input :: rest => input :: ttlUpdates rest
  | _ :: rest => ttlUpdates rest

/-! ## Port bindings and readiness probes (`container.go`) -/

/-- The struct `dc.PortBinding` of the docker client: the two fields `CreatePortBindings`
sets. -/
structure PortBinding where
  HostIP : String
  HostPort : String
  deriving DecidableEq, Repr

/-- A Go value of type `map[dc.Port][]dc.PortBinding` (`dc.Port` is a string type): the `nil`
map, or a map with its entries, one per key. -/
inductive PortMap where
  | nil
  | entries (es : List (String × List PortBinding))
  deriving DecidableEq, Repr

/-- The assignment `res[key] = value` on the entries of a map: an entry of `key` is replaced. -/
def assign (es : List (String × List PortBinding)) (key : String) (value : List PortBinding) :
    List (String × List PortBinding) :=
  (key, value) :: es.filter (fun e => decide (e.1 ≠ key))

/-- The index expression `v, ok := m[key]`: the value of `key` when the key is present. -/
def PortMap.get (m : PortMap) (key : String) : Option (List PortBinding) :=
  match m with
  | .nil => none
  | .entries es => es.lookup key

/-- The keys of a map, one per entry. -/
def PortMap.keys (m : PortMap) : List String :=
  match m with
  | .nil => []
  | .entries es => es.map Prod.fst

/-- `CreatePortBindings`: `res` starts as the empty map literal and takes one assignment per
port, in order. -/
def CreatePortBindings (ports : List String) : PortMap :=
  .entries (ports.foldl
    (fun res port => assign res (port ++ "/tcp") [{ HostIP := "localhost", HostPort := port }]) [])

/-- `DefaultPortBindings`. -/
def DefaultPortBindings : PortMap :=
  CreatePortBindings
    ["4566", "4572", "4569", "4574", "4575", "4576", "4582", "4586", "4603", "4594", "4583", "4597"]

/-- The errors the six SDK calls of the readiness probes answer (`none` is `nil`). -/
structure Answers where
  ListTables : Option GoError
  ListFunctions : Option GoError
  ListTopics : Option GoError
  ListQueues : Option GoError
  ListBuckets : Option GoError
  GetDomainNames : Option GoError
  deriving DecidableEq, Repr

/-- `dynamoClientReady`. -/
def dynamoClientReady (a : Answers) : Option GoError := a.ListTables

/-- `lambdaClientReady`. -/
def lambdaClientReady (a : Answers) : Option GoError := a.ListFunctions

/-- `snsClientReady`. -/
def snsClientReady (a : Answers) : Option GoError := a.ListTopics

/-- `sqsClientReady`. -/
def sqsClientReady (a : Answers) : Option GoError := a.ListQueues

/-- `s3ClientReady`. -/
def s3ClientReady (a : Answers) : Option GoError := a.ListBuckets

/-- `apigwClientReady`: the error of `GetDomainNamesWithContext` is assigned to `err`, and the
function ends with `return nil`. -/
def apigwClientReady (a : Answers) : Option GoError :=
  let _err := a.GetDomainNames
  none

/-- The six functions `checkContainerReady` hands to `errGroup.Go`. -/
inductive Probe where
  | dynamo
  | lambda
  | sns
  | sqs
  | s3
  | apigw
  deriving DecidableEq, Repr

/-- What the function of a probe returns. -/
def Probe.ready : Probe → Answers → Option GoError
  | .dynamo, a => dynamoClientReady a
  | .lambda, a => lambdaClientReady a
  | .sns, a => snsClientReady a
  | .sqs, a => sqsClientReady a
  | .s3, a => s3ClientReady a
  | .apigw, a => apigwClientReady a

/-- `errGroup.Wait()` of `golang.org/x/sync/errgroup`, on what the functions of the group
returned, in the order in which they finished: the first non-nil error, if any. -/
def Wait : List (Option GoError) → Option GoError
  | [] => none
  | some err :: _ => some err
  | none :: rest => Wait rest

/-- `xrayInit`: `xray.Configure` is called, and its error returned, only when
`config.Endpoints.XRay` is not empty. -/
def xrayInit (xrayEndpoint : String) (configure : Option GoError) : Option GoError :=
  if xrayEndpoint ≠ "" then configure else none

/-- The error `checkContainerReady` returns, when `services.NewTestDaemon()` (of the package
`kws/services`) returns a receiver.  `finished` lists the probes in the order their goroutines
finish. -/
def checkContainerReady (xrayEndpoint : String) (configure : Option GoError) (a : Answers)
    (finished : List Probe) : Option GoError :=
  match xrayInit xrayEndpoint configure with
  | none => Wait (finished.map (fun p => p.ready a))
  | some err => some err

/-! ## `NewS3BucketObject` (`main/functions.go`) -/

/-- The record `s3.PutObjectInput`: the fields `NewS3BucketObject` names.  `Body` is the text
its reader yields. -/
structure PutObjectInput where
  ACL : Option String
  Body : String
  Bucket : String
  Key : String
  Metadata : Option (List (String × String))
  deriving DecidableEq, Repr

/-- What `NewS3BucketObject` does to the outside, in order. -/
inductive S3Effect where
  | Println (line : String)
  | PutObject (input : PutObjectInput)
  deriving DecidableEq, Repr

/-- `NewS3BucketObject`: the effects it performs and the error it returns.  `PutObject` is
the operation of `services.S3Client()`, as the error it answers for a request. -/
def NewS3BucketObject (PutObject : PutObjectInput → Option GoError) (_ctx : Context)
    (bucketName key : String) (_content : List Nat) : List S3Effect × Option GoError :=
  let testString := "Test s3 bucket object content"
  let input : PutObjectInput :=
    { ACL := none
      Body := testString
      Bucket := bucketName
      Key := key
      Metadata := none }
  ([.Println ("  - Creating object for " ++ bucketName ++ " S3 Bucket for testing"),
      .PutObject input],
    PutObject input)

/-! ## Sample values -/

/-- A decoder for the examples: it agrees with `encoding/json` on `{}` (an empty segment),
on `null`, and rejects every other input as `encoding/json` rejects `{not json}`. -/
def sampleUnmarshal : Unmarshal
  | [123, 125] => .ok (some ⟨"", "", "", false⟩)
  | [110, 117, 108, 108] => .ok none
  | _ => .error (.lib "invalid character")

/-- The datagram `aaaaaaa\n{}`: a header line of seven bytes, a newline, an empty segment. -/
def headedDatagram : List Nat := [97, 97, 97, 97, 97, 97, 97, 10, 123, 125]

/-- The datagram `{}`: no header line and no newline. -/
def bareDatagram : List Nat := [123, 125]

/-- A client whose create-table call succeeds and whose TTL update fails. -/
def sampleClient : DynamoDbClient :=
  { CreateTableWithContext := fun _ _ => none
    UpdateTimeToLiveWithContext := fun _ _ => some (.lib "ValidationException") }

/-- A client whose create-table call fails. -/
def failingClient : DynamoDbClient :=
  { CreateTableWithContext := fun _ _ => some (.lib "ResourceInUseException")
    UpdateTimeToLiveWithContext := fun _ _ => none }

/-! ## The buffer: what `ReadFrom`, `IndexByte` and the slice compute -/

theorem readFrom_fst (buffer bytes : List Nat) :
    (readFrom buffer bytes).1 = min bytes.length buffer.length := by
  induction buffer generalizing bytes with
  | nil => cases bytes <;> simp [readFrom]
  | cons b bs ih =>
    cases bytes with
    | nil => simp [readFrom]
    | cons x xs =>
      simp only [readFrom, ih, List.length_cons]
      omega

theorem readFrom_snd (buffer bytes : List Nat) :
    (readFrom buffer bytes).2 = bytes.take buffer.length ++ buffer.drop bytes.length := by
  induction buffer generalizing bytes with
  | nil => cases bytes <;> simp [readFrom]
  | cons b bs ih =>
    cases bytes with
    | nil => simp [readFrom]
    | cons x xs => simp [readFrom, ih]

theorem readFrom_snd_of_le (buffer bytes : List Nat) (h : bytes.length ≤ buffer.length) :
    (readFrom buffer bytes).2 = bytes ++ buffer.drop bytes.length := by
  rw [readFrom_snd, List.take_of_length_le h]

theorem readFrom_fst_of_le (buffer bytes : List Nat) (h : bytes.length ≤ buffer.length) :
    (readFrom buffer bytes).1 = bytes.length := by
  rw [readFrom_fst, Nat.min_eq_left h]

theorem readFrom_length (buffer bytes : List Nat) :
    (readFrom buffer bytes).2.length = buffer.length := by
  rw [readFrom_snd]
  simp only [List.length_append, List.length_take, List.length_drop]
  omega

theorem indexByteFrom_of_mem (c : Nat) (l : List Nat) (i : Int) (h : c ∈ l) :
    indexByteFrom c l i = i + (l.indexOf c : Nat) := by
  induction l generalizing i with
  | nil => simp at h
  | cons b bs ih =>
    by_cases hb : b = c
    · subst hb
      simp [indexByteFrom]
    · have hmem : c ∈ bs := by
        rcases List.mem_cons.mp h with h1 | h1
        · exact absurd h1.symm hb
        · exact h1
      have hne : ¬ c = b := fun e => hb e.symm
      rw [indexByteFrom, if_neg hb, ih _ hmem, List.indexOf_cons_ne _ (Ne.symm hne)]
      push_cast
      ring

theorem indexByteFrom_of_not_mem (c : Nat) (l : List Nat) (i : Int) (h : c ∉ l) :
    indexByteFrom c l i = -1 := by
  induction l generalizing i with
  | nil => simp [indexByteFrom]
  | cons b bs ih =>
    have hb : ¬ b = c := fun e => h (by simp [e])
    have hbs : c ∉ bs := fun e => h (List.mem_cons_of_mem _ e)
    rw [indexByteFrom, if_neg hb, ih _ hbs]

theorem indexByte_of_mem (b : List Nat) (c : Nat) (h : c ∈ b) :
    indexByte b c = (b.indexOf c : Nat) := by
  rw [indexByte, indexByteFrom_of_mem c b 0 h]
  simp

theorem indexByte_of_not_mem (b : List Nat) (c : Nat) (h : c ∉ b) : indexByte b c = -1 :=
  indexByteFrom_of_not_mem c b 0 h

/-- The payload of a datagram that holds a newline: the bytes after its first newline,
whatever the buffer held before. -/
theorem slice_of_newline (buffer bytes : List Nat) (hb : buffer.length = bufferSize)
    (hd : bytes.length ≤ bufferSize) (hnl : 10 ∈ bytes) :
    sliceBuffer (readFrom buffer bytes).2 (indexByte (readFrom buffer bytes).2 10 + 1)
        (readFrom buffer bytes).1
      = .ok (bytes.drop (bytes.indexOf 10 + 1)) := by
  have hle : bytes.length ≤ buffer.length := hb ▸ hd
  have hlt : bytes.indexOf 10 < bytes.length := List.indexOf_lt_length.mpr hnl
  have hlen := readFrom_length buffer bytes
  rw [sliceBuffer, hlen, readFrom_snd_of_le _ _ hle, readFrom_fst_of_le _ _ hle,
    indexByte_of_mem _ _ (List.mem_append_left _ hnl), List.indexOf_append_of_mem hnl]
  have hcond : (0 : Int) ≤ (bytes.indexOf 10 : Nat) + 1 ∧
      ((bytes.indexOf 10 : Nat) : Int) + 1 ≤ (bytes.length : Nat) ∧
      ((bytes.length : Nat) : Int) ≤ (buffer.length : Nat) := by
    refine ⟨by omega, by omega, by exact_mod_cast hle⟩
  rw [if_pos hcond]
  have h1 : ((bytes.indexOf 10 : Nat) + 1 : Int).toNat = bytes.indexOf 10 + 1 := by omega
  rw [h1, Int.toNat_ofNat, List.take_left]

/-- The payload of a datagram without a newline, read into a buffer that holds no newline
after it: the whole datagram. -/
theorem slice_of_no_newline (buffer bytes : List Nat) (hb : buffer.length = bufferSize)
    (hd : bytes.length ≤ bufferSize) (hnl : 10 ∉ bytes)
    (hclean : 10 ∉ buffer.drop bytes.length) :
    sliceBuffer (readFrom buffer bytes).2 (indexByte (readFrom buffer bytes).2 10 + 1)
        (readFrom buffer bytes).1
      = .ok bytes := by
  have hle : bytes.length ≤ buffer.length := hb ▸ hd
  have hno : 10 ∉ bytes ++ buffer.drop bytes.length := by
    simp only [List.mem_append, not_or]
    exact ⟨hnl, hclean⟩
  have hlen := readFrom_length buffer bytes
  rw [sliceBuffer, hlen, readFrom_snd_of_le _ _ hle, readFrom_fst_of_le _ _ hle,
    indexByte_of_not_mem _ _ hno]
  have hcond : (0 : Int) ≤ -1 + 1 ∧ (-1 + 1 : Int) ≤ (bytes.length : Nat) ∧
      ((bytes.length : Nat) : Int) ≤ (buffer.length : Nat) := by
    refine ⟨by omega, by omega, by exact_mod_cast hle⟩
  rw [if_pos hcond]
  simp

/-- The slice for a datagram without a newline, read into a buffer that still holds a newline
of an earlier datagram after it: `idx + 1 > n`, a run-time panic. -/
theorem slice_of_stale_newline (buffer bytes : List Nat) (hb : buffer.length = bufferSize)
    (hd : bytes.length ≤ bufferSize) (hnl : 10 ∉ bytes)
    (hstale : 10 ∈ buffer.drop bytes.length) :
    sliceBuffer (readFrom buffer bytes).2 (indexByte (readFrom buffer bytes).2 10 + 1)
        (readFrom buffer bytes).1
      = .error "slice bounds out of range" := by
  have hle : bytes.length ≤ buffer.length := hb ▸ hd
  have hlen := readFrom_length buffer bytes
  rw [sliceBuffer, hlen, readFrom_snd_of_le _ _ hle, readFrom_fst_of_le _ _ hle,
    indexByte_of_mem _ _ (List.mem_append_right _ hstale), List.indexOf_append_of_not_mem hnl]
  have hcond : ¬ ((0 : Int) ≤ ((bytes.length + (buffer.drop bytes.length).indexOf 10 : Nat) : Int) + 1 ∧
      ((bytes.length + (buffer.drop bytes.length).indexOf 10 : Nat) : Int) + 1 ≤ (bytes.length : Nat) ∧
      ((bytes.length : Nat) : Int) ≤ (buffer.length : Nat)) := by
    intro h
    have := h.2.1
    omega
  rw [if_neg hcond]

/-- The `select` of a receiver that is not cancelled and whose channel has room: the result
is appended to the channel and the loop goes on. -/
theorem deliver_of_room (td : TestDaemon) (buffer : List Nat) (r : result) (pick : Bool)
    (hroom : td.ch.length < chanCap) (hlive : td.ctxDone = false) :
    deliver td buffer r pick = .reading { td with ch := td.ch ++ [r] } buffer := by
  simp [deliver, hroom, hlive]

/-- An iteration on a datagram whose slice is the payload `p`. -/
theorem runIter_of_slice (unmarshal : Unmarshal) (td : TestDaemon) (buffer bytes p : List Nat)
    (pick : Bool)
    (hs : sliceBuffer (readFrom buffer bytes).2 (indexByte (readFrom buffer bytes).2 10 + 1)
        (readFrom buffer bytes).1 = .ok p) :
    runIter unmarshal td buffer (.datagram bytes) pick =
      match unmarshal p with
      | .error err => deliver td (readFrom buffer bytes).2 ⟨none, some err⟩ pick
      | .ok none => .panicked td "invalid memory address or nil pointer dereference"
      | .ok (some seg) =>
        deliver td (readFrom buffer bytes).2 ⟨some { seg with Sampled := true }, none⟩ pick := by
  simp only [runIter, hs]

/-- An iteration on a datagram whose slice is out of bounds. -/
theorem runIter_of_slice_panic (unmarshal : Unmarshal) (td : TestDaemon) (buffer bytes : List Nat)
    (pick : Bool) (msg : String)
    (hs : sliceBuffer (readFrom buffer bytes).2 (indexByte (readFrom buffer bytes).2 10 + 1)
        (readFrom buffer bytes).1 = .error msg) :
    runIter unmarshal td buffer (.datagram bytes) pick = .panicked td msg := by
  simp only [runIter, hs]

/-- The loop goes on with the remaining reads after an iteration that ends at its head. -/
theorem runFrom_cons_of_reading (unmarshal : Unmarshal) (td td1 : TestDaemon)
    (buffer buffer1 : List Nat) (ev : ReadEvent) (pick : Bool) (rest : List (ReadEvent × Bool))
    (h : runIter unmarshal td buffer ev pick = .reading td1 buffer1) :
    runFrom unmarshal td buffer ((ev, pick) :: rest) = runFrom unmarshal td1 buffer1 rest := by
  simp only [runFrom, h]

/-- The loop ends with the panic of an iteration. -/
theorem runFrom_cons_of_panicked (unmarshal : Unmarshal) (td td1 : TestDaemon)
    (buffer : List Nat) (ev : ReadEvent) (pick : Bool) (rest : List (ReadEvent × Bool))
    (msg : String) (h : runIter unmarshal td buffer ev pick = .panicked td1 msg) :
    runFrom unmarshal td buffer ((ev, pick) :: rest) = .panicked td1 msg := by
  simp only [runFrom, h]

/-- The fresh buffer holds no newline. -/
theorem fresh_buffer_clean (k : Nat) : 10 ∉ (List.replicate bufferSize 0).drop k := by
  intro h
  have h0 := List.eq_of_mem_replicate (List.mem_of_mem_drop h)
  omega

/-- A `select` that lets the loop go on has sent its result and kept the buffer. -/
theorem deliver_reading (td td1 : TestDaemon) (buffer buffer1 : List Nat) (r : result)
    (pick : Bool) (h : deliver td buffer r pick = .reading td1 buffer1) :
    td1 = { td with ch := td.ch ++ [r] } ∧ buffer1 = buffer := by
  unfold deliver at h
  cases hroom : decide (td.ch.length < chanCap) <;> cases hd : td.ctxDone <;>
    cases pick <;> simp only [hroom, hd] at h <;> first
      | (cases h; exact ⟨rfl, rfl⟩)
      | (simp at h)

/-- The buffer keeps its length through an iteration. -/
theorem runIter_buffer_length (unmarshal : Unmarshal) (td td1 : TestDaemon)
    (buffer buffer1 : List Nat) (ev : ReadEvent) (pick : Bool)
    (h : runIter unmarshal td buffer ev pick = .reading td1 buffer1) :
    buffer1.length = buffer.length := by
  cases ev with
  | failure err =>
    rw [(deliver_reading _ _ _ _ _ _ h).2]
  | datagram bytes =>
    simp only [runIter] at h
    split at h
    · cases h
    · split at h
      · rw [(deliver_reading _ _ _ _ _ _ h).2, readFrom_length]
      · cases h
      · rw [(deliver_reading _ _ _ _ _ _ h).2, readFrom_length]

/-- Invariant of the drain loop: whenever `run` is back at the head of its loop, the buffer
still has `bufferSize` bytes. -/
theorem run_buffer_length (unmarshal : Unmarshal) (reads : List (ReadEvent × Bool))
    (td td1 : TestDaemon) (buffer buffer1 : List Nat)
    (h : runFrom unmarshal td buffer reads = .reading td1 buffer1) :
    buffer1.length = buffer.length := by
  induction reads generalizing td buffer with
  | nil =>
    simp only [runFrom] at h
    injection h with _ h2
    rw [h2]
  | cons rd rest ih =>
    obtain ⟨ev, pick⟩ := rd
    simp only [runFrom] at h
    split at h
    · next td2 buffer2 hit =>
      rw [ih _ _ h, runIter_buffer_length _ _ _ _ _ _ _ hit]
    · next s hs =>
      rw [h] at hs
      exact absurd rfl (hs td1 buffer1)

/-- The loop over two runs of reads: the second run is read from where the first ends. -/
theorem runFrom_append (unmarshal : Unmarshal) (xs ys : List (ReadEvent × Bool))
    (td : TestDaemon) (buffer : List Nat) :
    runFrom unmarshal td buffer (xs ++ ys) =
      match runFrom unmarshal td buffer xs with
      | .reading td1 buffer1 => runFrom unmarshal td1 buffer1 ys
      | s => s := by
  induction xs generalizing td buffer with
  | nil => simp only [List.nil_append, runFrom]
  | cons rd rest ih =>
    obtain ⟨ev, pick⟩ := rd
    simp only [List.cons_append, runFrom]
    cases h : runIter unmarshal td buffer ev pick with
    | reading td1 buffer1 => exact ih td1 buffer1
    | sending td1 buffer1 r => rfl
    | returned td1 => rfl
    | panicked td1 msg => rfl

/-- The loop over a single read is one iteration. -/
theorem runFrom_singleton (unmarshal : Unmarshal) (td : TestDaemon) (buffer : List Nat)
    (ev : ReadEvent) (pick : Bool) :
    runFrom unmarshal td buffer [(ev, pick)] = runIter unmarshal td buffer ev pick := by
  simp only [runFrom]
  cases runIter unmarshal td buffer ev pick <;> rfl

/-- When `run` is back at the head of its loop after some reads, further reads go on from
that state. -/
theorem run_append_of_reading (unmarshal : Unmarshal) (td0 td : TestDaemon)
    (earlier rest : List (ReadEvent × Bool)) (buffer : List Nat)
    (h : run unmarshal td0 earlier = .reading td buffer) :
    run unmarshal td0 (earlier ++ rest) = runFrom unmarshal td buffer rest := by
  rw [run] at h
  rw [run, runFrom_append, h]

/-- When `run` is back at the head of its loop, its buffer has `bufferSize` bytes. -/
theorem run_reading_length (unmarshal : Unmarshal) (td0 td : TestDaemon)
    (earlier : List (ReadEvent × Bool)) (buffer : List Nat)
    (h : run unmarshal td0 earlier = .reading td buffer) : buffer.length = bufferSize :=
  (run_buffer_length unmarshal earlier td0 td _ buffer h).trans (List.length_replicate _ _)

/-! ## The drain loop: decoding (C1, C2, C3) -/

/-- C1: whenever the drain loop, back at its head after any earlier reads, reads a datagram
that holds a newline and whose bytes after its first newline parse as a segment `seg`, it
offers to the channel exactly the success result: no error, and `seg` with `Sampled` set to
`true`, whatever `seg.Sampled` was and whatever the earlier reads left in the buffer.  On a
receiver that is not cancelled and whose channel has room the result is delivered (it becomes
the newest pending result) and the loop is back at its head. -/
theorem run_delivers_sampled_segment (unmarshal : Unmarshal) (td0 td : TestDaemon)
    (earlier : List (ReadEvent × Bool)) (buffer bytes : List Nat) (seg : Segment) (pick : Bool)
    (hrun : run unmarshal td0 earlier = .reading td buffer)
    (hd : bytes.length ≤ bufferSize) (hnl : 10 ∈ bytes)
    (hparse : unmarshal (bytes.drop (bytes.indexOf 10 + 1)) = .ok (some seg)) :
    run unmarshal td0 (earlier ++ [(.datagram bytes, pick)])
        = deliver td (readFrom buffer bytes).2
            ⟨some ⟨seg.ID, seg.TraceID, seg.Name, true⟩, none⟩ pick ∧
      (td.ch.length < chanCap → td.ctxDone = false →
        run unmarshal td0 (earlier ++ [(.datagram bytes, pick)])
          = .reading { td with ch := td.ch ++ [⟨some ⟨seg.ID, seg.TraceID, seg.Name, true⟩, none⟩] }
              (readFrom buffer bytes).2) := by
  have hb := run_reading_length unmarshal td0 td earlier buffer hrun
  have h := runIter_of_slice unmarshal td buffer bytes _ pick (slice_of_newline buffer bytes hb hd hnl)
  rw [hparse] at h
  rw [run_append_of_reading unmarshal td0 td earlier _ buffer hrun, runFrom_singleton]
  exact ⟨h, fun hroom hlive => h.trans (deliver_of_room _ _ _ _ hroom hlive)⟩

/-- C1, at the datagram `a\n{}` read first by the loop of a new receiver. -/
theorem run_delivers_sampled_segment_witness :
    run sampleUnmarshal newDaemon ([] ++ [(.datagram [97, 10, 123, 125], true)])
      = .reading { newDaemon with ch := newDaemon.ch ++ [⟨some ⟨"", "", "", true⟩, none⟩] }
          (readFrom (List.replicate bufferSize 0) [97, 10, 123, 125]).2 :=
  (run_delivers_sampled_segment sampleUnmarshal newDaemon newDaemon [] (List.replicate bufferSize 0)
    [97, 10, 123, 125] ⟨"", "", "", false⟩ true rfl (by decide) (by decide)
    rfl).2 (by decide) (by decide)

/-- C2, refuted as stated: the datagram `{}` holds no newline, and the drain loop of a new
receiver delivers a success result for it (the empty segment, `Sampled` set), not a decode
error. -/
theorem no_newline_datagram_decoded :
    10 ∉ [123, 125] ∧
      run sampleUnmarshal newDaemon [(.datagram [123, 125], true)]
        = .reading { newDaemon with ch := [⟨some ⟨"", "", "", true⟩, none⟩] }
            (readFrom (List.replicate bufferSize 0) [123, 125]).2 := by
  refine ⟨by decide, ?_⟩
  have hs := slice_of_no_newline (List.replicate bufferSize 0) [123, 125]
    (List.length_replicate _ _) (by decide) (by decide) (fresh_buffer_clean _)
  have h := runIter_of_slice sampleUnmarshal newDaemon _ _ _ true hs
  have h1 : runIter sampleUnmarshal newDaemon (List.replicate bufferSize 0)
      (.datagram [123, 125]) true
      = .reading { newDaemon with ch := [⟨some ⟨"", "", "", true⟩, none⟩] }
          (readFrom (List.replicate bufferSize 0) [123, 125]).2 :=
    h.trans (deliver_of_room _ _ _ _ (by decide) (by decide))
  rw [run, runFrom_cons_of_reading _ _ _ _ _ _ _ _ h1, runFrom]

/-- C2, amended: whenever the drain loop, back at its head after any earlier reads, reads a
datagram without a newline into a buffer that holds no newline after the datagram's length
(as the fresh buffer of a new loop does), the datagram is decoded whole.  On a receiver that
is not cancelled and whose channel has room, the loop delivers a decode-error result (no
segment, the parse error) when the whole datagram fails to parse, and a success result with
`Sampled` set when the whole datagram parses as a segment. -/
theorem run_no_newline_decodes_whole (unmarshal : Unmarshal) (td0 td : TestDaemon)
    (earlier : List (ReadEvent × Bool)) (buffer bytes : List Nat) (pick : Bool)
    (hrun : run unmarshal td0 earlier = .reading td buffer)
    (hd : bytes.length ≤ bufferSize) (hnl : 10 ∉ bytes)
    (hclean : 10 ∉ buffer.drop bytes.length)
    (hroom : td.ch.length < chanCap) (hlive : td.ctxDone = false) :
    (∀ err, unmarshal bytes = .error err →
        run unmarshal td0 (earlier ++ [(.datagram bytes, pick)])
          = .reading { td with ch := td.ch ++ [⟨none, some err⟩] } (readFrom buffer bytes).2) ∧
      (∀ seg, unmarshal bytes = .ok (some seg) →
        run unmarshal td0 (earlier ++ [(.datagram bytes, pick)])
          = .reading { td with ch := td.ch ++ [⟨some ⟨seg.ID, seg.TraceID, seg.Name, true⟩, none⟩] }
              (readFrom buffer bytes).2) := by
  have hb := run_reading_length unmarshal td0 td earlier buffer hrun
  have h := runIter_of_slice unmarshal td buffer bytes _ pick
    (slice_of_no_newline buffer bytes hb hd hnl hclean)
  rw [run_append_of_reading unmarshal td0 td earlier _ buffer hrun, runFrom_singleton]
  constructor
  · intro err he
    rw [he] at h
    exact h.trans (deliver_of_room _ _ _ _ hroom hlive)
  · intro seg he
    rw [he] at h
    exact h.trans (deliver_of_room _ _ _ _ hroom hlive)

/-- C2 amended, at the datagrams `{not json}` and `{}`, each read first by the loop of a new
receiver: a decode error for the first, a success for the second. -/
theorem run_no_newline_decodes_whole_witness :
    run sampleUnmarshal newDaemon
        ([] ++ [(.datagram [123, 110, 111, 116, 32, 106, 115, 111, 110, 125], true)])
        = .reading { newDaemon with
            ch := newDaemon.ch ++ [⟨none, some (.lib "invalid character")⟩] }
          (readFrom (List.replicate bufferSize 0)
            [123, 110, 111, 116, 32, 106, 115, 111, 110, 125]).2 ∧
      run sampleUnmarshal newDaemon ([] ++ [(.datagram [123, 125], true)])
        = .reading { newDaemon with ch := newDaemon.ch ++ [⟨some ⟨"", "", "", true⟩, none⟩] }
          (readFrom (List.replicate bufferSize 0) [123, 125]).2 :=
  ⟨(run_no_newline_decodes_whole sampleUnmarshal newDaemon newDaemon []
      (List.replicate bufferSize 0) [123, 110, 111, 116, 32, 106, 115, 111, 110, 125] true rfl
      (by decide) (by decide) (fresh_buffer_clean _) (by decide) (by decide)).1 _ rfl,
    (run_no_newline_decodes_whole sampleUnmarshal newDaemon newDaemon []
      (List.replicate bufferSize 0) [123, 125] true rfl
      (by decide) (by decide) (fresh_buffer_clean _) (by decide) (by decide)).2 ⟨"", "", "", false⟩ rfl⟩

/-- C3: whenever the drain loop, back at its head after any earlier reads, reads a datagram
that holds a newline and whose bytes after its first newline fail to parse, with error `err`,
it offers to the channel the result with no segment and the error `err`.  On a receiver that
is not cancelled and whose channel has room the result is delivered and the loop does not
end: it is back at its head and goes on with the reads that follow. -/
theorem run_delivers_parse_error (unmarshal : Unmarshal) (td0 td : TestDaemon)
    (earlier : List (ReadEvent × Bool)) (buffer bytes : List Nat) (err : GoError) (pick : Bool)
    (hrun : run unmarshal td0 earlier = .reading td buffer)
    (hd : bytes.length ≤ bufferSize) (hnl : 10 ∈ bytes)
    (hparse : unmarshal (bytes.drop (bytes.indexOf 10 + 1)) = .error err) :
    run unmarshal td0 (earlier ++ [(.datagram bytes, pick)])
        = deliver td (readFrom buffer bytes).2 ⟨none, some err⟩ pick ∧
      (td.ch.length < chanCap → td.ctxDone = false →
        run unmarshal td0 (earlier ++ [(.datagram bytes, pick)])
            = .reading { td with ch := td.ch ++ [⟨none, some err⟩] } (readFrom buffer bytes).2 ∧
          ∀ rest, run unmarshal td0 (earlier ++ (.datagram bytes, pick) :: rest)
            = runFrom unmarshal { td with ch := td.ch ++ [⟨none, some err⟩] }
                (readFrom buffer bytes).2 rest) := by
  have hb := run_reading_length unmarshal td0 td earlier buffer hrun
  have h := runIter_of_slice unmarshal td buffer bytes _ pick (slice_of_newline buffer bytes hb hd hnl)
  rw [hparse] at h
  rw [run_append_of_reading unmarshal td0 td earlier _ buffer hrun, runFrom_singleton]
  refine ⟨h, fun hroom hlive => ?_⟩
  have h1 := h.trans (deliver_of_room _ _ _ _ hroom hlive)
  refine ⟨h1, fun rest => ?_⟩
  rw [run_append_of_reading unmarshal td0 td earlier _ buffer hrun]
  exact runFrom_cons_of_reading _ _ _ _ _ _ _ rest h1

/-- C3, at the datagram `header\n{not json}` read first by the loop of a new receiver and
followed by a read error. -/
theorem run_delivers_parse_error_witness :
    run sampleUnmarshal newDaemon
        ([] ++ (.datagram
            [104, 101, 97, 100, 101, 114, 10, 123, 110, 111, 116, 32, 106, 115, 111, 110, 125],
          true) :: [(.failure (.lib "use of closed network connection"), true)])
      = runFrom sampleUnmarshal
          { newDaemon with ch := newDaemon.ch ++ [⟨none, some (.lib "invalid character")⟩] }
          (readFrom (List.replicate bufferSize 0)
            [104, 101, 97, 100, 101, 114, 10, 123, 110, 111, 116, 32, 106, 115, 111, 110, 125]).2
          [(.failure (.lib "use of closed network connection"), true)] :=
  ((run_delivers_parse_error sampleUnmarshal newDaemon newDaemon [] (List.replicate bufferSize 0)
    [104, 101, 97, 100, 101, 114, 10, 123, 110, 111, 116, 32, 106, 115, 111, 110, 125]
    (.lib "invalid character") true rfl (by decide) (by decide)
    rfl).2 (by decide) (by decide)).2 _

/-! ## The drain loop: the reused buffer (C4, C5) -/

/-- The first iteration of a new receiver on `headedDatagram`: the empty segment is delivered
and the datagram stays in the buffer. -/
theorem run_headed_first :
    runIter sampleUnmarshal newDaemon (List.replicate bufferSize 0) (.datagram headedDatagram) true
      = .reading { newDaemon with ch := [⟨some ⟨"", "", "", true⟩, none⟩] }
          (readFrom (List.replicate bufferSize 0) headedDatagram).2 := by
  have hs := slice_of_newline (List.replicate bufferSize 0) headedDatagram
    (List.length_replicate _ _) (by decide) (by decide)
  have h := runIter_of_slice sampleUnmarshal newDaemon _ _ _ true hs
  exact h.trans (deliver_of_room _ _ _ _ (by decide) (by decide))

/-- After `headedDatagram`, the buffer holds its newline beyond the length of `bareDatagram`. -/
theorem stale_newline_after_headed :
    10 ∈ ((readFrom (List.replicate bufferSize 0) headedDatagram).2).drop bareDatagram.length := by
  rw [readFrom_snd_of_le _ _ (by rw [List.length_replicate]; decide)]
  rw [List.drop_append_of_le_length (by decide)]
  exact List.mem_append_left _ (by decide)

/-- The second iteration, on `bareDatagram` after `headedDatagram`: the slice is out of
bounds. -/
theorem run_bare_second (td : TestDaemon) :
    runIter sampleUnmarshal td (readFrom (List.replicate bufferSize 0) headedDatagram).2
        (.datagram bareDatagram) true
      = .panicked td "slice bounds out of range" :=
  runIter_of_slice_panic _ _ _ _ _ _
    (slice_of_stale_newline _ bareDatagram
      ((readFrom_length _ _).trans (List.length_replicate _ _)) (by decide) (by decide)
      stale_newline_after_headed)

/-- C4, at the datagrams `aaaaaaa\n{}` then `{}` sent to a new receiver: after the second
read `n = 2` while the first newline found in the buffer is the one the first datagram left
at index 7, so `idx + 1 = 8 > n` and `run` ends in the panic of `buffer[8:2]`. -/
theorem run_panics_on_stale_newline :
    (readFrom (readFrom (List.replicate bufferSize 0) headedDatagram).2 bareDatagram).1 = 2 ∧
      indexByte (readFrom (readFrom (List.replicate bufferSize 0) headedDatagram).2
        bareDatagram).2 10 = 7 ∧
      run sampleUnmarshal newDaemon [(.datagram headedDatagram, true), (.datagram bareDatagram, true)]
        = .panicked { newDaemon with ch := [⟨some ⟨"", "", "", true⟩, none⟩] }
            "slice bounds out of range" := by
  have hlen : bareDatagram.length ≤
      ((readFrom (List.replicate bufferSize 0) headedDatagram).2).length := by
    rw [readFrom_length, List.length_replicate]
    decide
  refine ⟨?_, ?_, ?_⟩
  · rw [readFrom_fst_of_le _ _ hlen]
    rfl
  · rw [readFrom_snd_of_le _ _ hlen,
      indexByte_of_mem _ _ (List.mem_append_right _ stale_newline_after_headed),
      List.indexOf_append_of_not_mem (by decide),
      readFrom_snd_of_le _ _ (by rw [List.length_replicate]; decide),
      List.drop_append_of_le_length (by decide)]
    rw [List.indexOf_append_of_mem (by decide)]
    decide
  · rw [run, runFrom_cons_of_reading _ _ _ _ _ _ _ _ run_headed_first,
      runFrom_cons_of_panicked _ _ _ _ _ _ _ _ (run_bare_second _)]

/-- C5, at the datagrams `aaaaaaa\n{}` then `{}` sent to a new receiver (two datagrams, a
channel of capacity 200): the loop panics on the second one with a single result in the
channel, so the first `Recv` returns the result of the first datagram and the second `Recv`
finds nothing and times out: the second datagram has no result. -/
theorem recv_misses_datagram_after_panic :
    run sampleUnmarshal newDaemon [(.datagram headedDatagram, true), (.datagram bareDatagram, true)]
        = .panicked ⟨[⟨some ⟨"", "", "", true⟩, none⟩], 0, 0, false⟩ "slice bounds out of range" ∧
      (Recv ⟨[⟨some ⟨"", "", "", true⟩, none⟩], 0, 0, false⟩ true).1
        = (some ⟨"", "", "", true⟩, none) ∧
      (Recv (Recv ⟨[⟨some ⟨"", "", "", true⟩, none⟩], 0, 0, false⟩ true).2 true).1
        = (none, some .DeadlineExceeded) := by
  refine ⟨?_, by decide, by decide⟩
  rw [run, runFrom_cons_of_reading _ _ _ _ _ _ _ _ run_headed_first,
    runFrom_cons_of_panicked _ _ _ _ _ _ _ _ (run_bare_second _)]
  rfl

/-! ## `Recv` (C6, C7) -/

/-- C6, refuted as stated: on a receiver that has been closed, with nothing pending, `Recv`
returns the cancellation error `context.Canceled`, which is not the deadline-exceeded error. -/
theorem recv_closed_not_deadline :
    (Close newDaemon).ch = [] ∧
      Recv (Close newDaemon) true = ((none, some .Canceled), Close newDaemon) ∧
      (Recv (Close newDaemon) true).1.2 ≠ some .DeadlineExceeded := by
  decide

/-- C6, amended: when nothing is pending for the whole call, `Recv` returns no segment and
the error of its context, and leaves the receiver as it was: on a receiver that is not
cancelled the error is `context.DeadlineExceeded` (the timeout), on a cancelled receiver it is
`context.Canceled`. -/
theorem recv_empty (td : TestDaemon) (pick : Bool) (hempty : td.ch = []) :
    (td.ctxDone = false → Recv td pick = ((none, some .DeadlineExceeded), td)) ∧
      (td.ctxDone = true → Recv td pick = ((none, some .Canceled), td)) := by
  constructor <;> intro h <;> simp [Recv, hempty, h]

/-- C6 amended, at a new receiver and at a closed one. -/
theorem recv_empty_witness :
    Recv newDaemon false = ((none, some .DeadlineExceeded), newDaemon) ∧
      Recv (Close newDaemon) false = ((none, some .Canceled), Close newDaemon) :=
  ⟨(recv_empty newDaemon false rfl).1 (by decide),
    (recv_empty (Close newDaemon) false rfl).2 (by decide)⟩

/-- C7: a call of `Recv` either leaves the receiver as it was or removes the oldest pending
result and nothing else; on a receiver that is not cancelled and has a pending result it
returns the segment and the error of the oldest pending result `r` and leaves the other
pending results `rest`, in their order, and the other fields of the receiver. -/
theorem recv_removes_oldest (td : TestDaemon) (pick : Bool) :
    ((Recv td pick).2 = td ∨
        ∃ r rest, td.ch = r :: rest ∧ (Recv td pick).2 = { td with ch := rest }) ∧
      (∀ r rest, td.ctxDone = false → td.ch = r :: rest →
        Recv td pick = ((r.Segment, r.Error), { td with ch := rest })) := by
  constructor
  · cases hch : td.ch with
    | nil => left; cases hd : td.ctxDone <;> simp [Recv, hch, hd]
    | cons r rest =>
      cases hd : td.ctxDone
      · right; exact ⟨r, rest, rfl, by simp [Recv, hch, hd]⟩
      · cases pick
        · left; simp [Recv, hch, hd]
        · right; exact ⟨r, rest, rfl, by simp [Recv, hch, hd]⟩
  · intro r rest hd hch
    simp [Recv, hch, hd]

/-- C7, at a receiver with two pending results: the first call returns the older one. -/
theorem recv_removes_oldest_witness :
    Recv ⟨[⟨none, some (.lib "invalid character")⟩, ⟨some ⟨"abc", "1-x", "", true⟩, none⟩], 0, 0, false⟩
        true
      = ((none, some (.lib "invalid character")),
          ⟨[⟨some ⟨"abc", "1-x", "", true⟩, none⟩], 0, 0, false⟩) :=
  (recv_removes_oldest
    ⟨[⟨none, some (.lib "invalid character")⟩, ⟨some ⟨"abc", "1-x", "", true⟩, none⟩], 0, 0, false⟩
    true).2 _ _ (by decide) rfl

/-! ## `Close` (C8) -/

/-- After one `Close` the once-guard is set. -/
theorem closeOnce_of_Close (td : TestDaemon) : (Close td).closeOnce = true := by
  unfold Close
  split
  · assumption
  · rfl

/-- A `Close` on a receiver whose once-guard is set changes nothing. -/
theorem Close_of_closeOnce (td : TestDaemon) (h : td.closeOnce = true) : Close td = td := by
  simp [Close, h]

/-- Any number of calls of `Close`, at least one, ends where a single call ends. -/
theorem iterate_Close (td : TestDaemon) (k : Nat) : Nat.iterate Close (k + 1) td = Close td := by
  induction k with
  | zero => rfl
  | succ n ih =>
    rw [Function.iterate_succ_apply', ih]
    exact Close_of_closeOnce _ (closeOnce_of_Close td)

/-- C8: calling `Close` twice, or any number `k + 1` of times, leaves the receiver in the
state one call leaves it in, and over all the calls `cancel()` and `conn.Close()` are each
invoked once if the receiver had not been closed before (not at all if it had): on a receiver
made by `NewTestDaemon` each is invoked exactly once. -/
theorem Close_idempotent (td : TestDaemon) (k : Nat) :
    Close (Close td) = Close td ∧
      Nat.iterate Close (k + 1) td = Close td ∧
      (Nat.iterate Close (k + 1) td).cancelCalls
        = td.cancelCalls + (if td.closeOnce then 0 else 1) ∧
      (Nat.iterate Close (k + 1) td).connCloseCalls
        = td.connCloseCalls + (if td.closeOnce then 0 else 1) ∧
      (Nat.iterate Close (k + 1) newDaemon).cancelCalls = 1 ∧
      (Nat.iterate Close (k + 1) newDaemon).connCloseCalls = 1 := by
  refine ⟨Close_of_closeOnce _ (closeOnce_of_Close td), iterate_Close td k, ?_, ?_, ?_, ?_⟩
  · rw [iterate_Close]
    cases h : td.closeOnce <;> simp [Close, h]
  · rw [iterate_Close]
    cases h : td.closeOnce <;> simp [Close, h]
  · rw [iterate_Close]
    rfl
  · rw [iterate_Close]
    rfl

/-! ## `NewTestDaemon` (C9) -/

/-- C9, at the binds where `127.0.0.1:0` cannot be bound and `[::1]:0` can: `NewTestDaemon`
returns, with a nil context and a nil receiver, and no drain loop has been started. -/
theorem NewTestDaemon_returns_nil :
    NewTestDaemon
        { listenUDP4 := some (.lib "listen udp 127.0.0.1:0: bind: cannot assign requested address")
          listenUDP6 := none
          newDefaultEmitter := none
          contextWithConfig := (some .withConfig, none) }
      = .returned ⟨none, none, false⟩ := by
  rfl

/-! ## `NewTable` (C10) -/

/-- C10: with `input` the create-table request `NewTable` builds,
(1) when the create-table call fails with `err`, `NewTable` returns `err` and issues no TTL
update; (2) when it succeeds and `ttlAttr` points to `attr`, `NewTable` issues exactly one TTL
update, for `tableName` with attribute name `attr` and `Enabled` true, and returns the error
of that update; (3) when it succeeds and `ttlAttr` is nil, `NewTable` issues no TTL update and
returns nil. -/
theorem NewTable_ttl (client : DynamoDbClient) (ctx : Context) (tableName : String)
    (attrDefs : List AttributeDefinition) (keySchema : List KeySchemaElement)
    (global : List GlobalSecondaryIndex) (locals : List LocalSecondaryIndex)
    (ttlAttr : Option String) :
    (∀ err, client.CreateTableWithContext ctx
          (newTableInput tableName attrDefs keySchema global locals) = some err →
        (NewTable client ctx tableName attrDefs keySchema global locals ttlAttr).2 = some err ∧
        ttlUpdates (NewTable client ctx tableName attrDefs keySchema global locals ttlAttr).1
          = []) ∧
      (∀ attr, client.CreateTableWithContext ctx
          (newTableInput tableName attrDefs keySchema global locals) = none →
        ttlAttr = some attr →
        ttlUpdates (NewTable client ctx tableName attrDefs keySchema global locals ttlAttr).1
          = [⟨tableName, ⟨attr, true⟩⟩] ∧
        (NewTable client ctx tableName attrDefs keySchema global locals ttlAttr).2
          = client.UpdateTimeToLiveWithContext ctx ⟨tableName, ⟨attr, true⟩⟩) ∧
      (client.CreateTableWithContext ctx
          (newTableInput tableName attrDefs keySchema global locals) = none →
        ttlAttr = none →
        ttlUpdates (NewTable client ctx tableName attrDefs keySchema global locals ttlAttr).1
          = [] ∧
        (NewTable client ctx tableName attrDefs keySchema global locals ttlAttr).2 = none) := by
  refine ⟨fun err h => ?_, fun attr h ha => ?_, fun h ha => ?_⟩
  · cases ttlAttr <;> simp [NewTable, h, ttlUpdates]
  · subst ha
    simp [NewTable, h, AddTTL, ttlUpdates]
  · subst ha
    simp [NewTable, h, ttlUpdates]

/-- C10, at the table of the test (`testTable1`, TTL attribute `ttl`): on a client whose
create-table call succeeds, one TTL update, whose error is returned, and none without a TTL
attribute; on a client whose create-table call fails, that error and no TTL update. -/
theorem NewTable_ttl_witness :
    (ttlUpdates (NewTable sampleClient .withSegment "testTable1"
        [⟨"testAttr1", "S"⟩, ⟨"testAttr2", "S"⟩, ⟨"testAttr3", "S"⟩]
        [⟨"testAttr1", "HASH"⟩, ⟨"testAttr2", "RANGE"⟩] [] [] (some "ttl")).1
        = [⟨"testTable1", ⟨"ttl", true⟩⟩] ∧
      (NewTable sampleClient .withSegment "testTable1"
        [⟨"testAttr1", "S"⟩, ⟨"testAttr2", "S"⟩, ⟨"testAttr3", "S"⟩]
        [⟨"testAttr1", "HASH"⟩, ⟨"testAttr2", "RANGE"⟩] [] [] (some "ttl")).2
        = sampleClient.UpdateTimeToLiveWithContext .withSegment ⟨"testTable1", ⟨"ttl", true⟩⟩) ∧
      (ttlUpdates (NewTable sampleClient .withSegment "testTable1"
        [⟨"testAttr1", "S"⟩] [⟨"testAttr1", "HASH"⟩] [] [] none).1 = [] ∧
      (NewTable sampleClient .withSegment "testTable1"
        [⟨"testAttr1", "S"⟩] [⟨"testAttr1", "HASH"⟩] [] [] none).2 = none) ∧
      ((NewTable failingClient .withSegment "testTable1"
        [⟨"testAttr1", "S"⟩] [⟨"testAttr1", "HASH"⟩] [] [] (some "ttl")).2
        = some (.lib "ResourceInUseException") ∧
      ttlUpdates (NewTable failingClient .withSegment "testTable1"
        [⟨"testAttr1", "S"⟩] [⟨"testAttr1", "HASH"⟩] [] [] (some "ttl")).1 = []) :=
  ⟨(NewTable_ttl sampleClient .withSegment "testTable1"
      [⟨"testAttr1", "S"⟩, ⟨"testAttr2", "S"⟩, ⟨"testAttr3", "S"⟩]
      [⟨"testAttr1", "HASH"⟩, ⟨"testAttr2", "RANGE"⟩] [] [] (some "ttl")).2.1 "ttl" rfl rfl,
    (NewTable_ttl sampleClient .withSegment "testTable1"
      [⟨"testAttr1", "S"⟩] [⟨"testAttr1", "HASH"⟩] [] [] none).2.2 rfl rfl,
    (NewTable_ttl failingClient .withSegment "testTable1"
      [⟨"testAttr1", "S"⟩] [⟨"testAttr1", "HASH"⟩] [] [] (some "ttl")).1 _ rfl⟩

/-! ## `CreatePortBindings` (C11) -/

/-- Two ports with the same key `port + "/tcp"` are the same port. -/
theorem append_tcp_inj (p q : String) (h : p ++ "/tcp" = q ++ "/tcp") : p = q := by
  have hd := congrArg String.data h
  rw [String.data_append, String.data_append] at hd
  exact String.ext (List.append_cancel_right hd)

/-- Looking a key up after the entries of another key were removed. -/
theorem lookup_filter_ne (es : List (String × List PortBinding)) (key key1 : String)
    (hne : key1 ≠ key) :
    (es.filter (fun e => decide (e.1 ≠ key))).lookup key1 = es.lookup key1 := by
  induction es with
  | nil => rfl
  | cons e rest ih =>
    obtain ⟨a, b⟩ := e
    by_cases ha : a = key
    · subst ha
      have hk : (key1 == a) = false := by simpa using hne
      simpa [List.filter_cons, List.lookup_cons, hk] using ih
    · by_cases hk : key1 = a
      · subst hk
        simp [List.filter_cons, List.lookup_cons, ha]
      · have hk1 : (key1 == a) = false := by simpa using hk
        simpa [List.filter_cons, List.lookup_cons, ha, hk1] using ih

/-- The assignment `res[key] = value` sets the value of `key`. -/
theorem lookup_assign_self (es : List (String × List PortBinding)) (key : String)
    (value : List PortBinding) : (assign es key value).lookup key = some value := by
  simp [assign, List.lookup_cons]

/-- The assignment `res[key] = value` leaves the other keys as they were. -/
theorem lookup_assign_ne (es : List (String × List PortBinding)) (key key1 : String)
    (value : List PortBinding) (hne : key1 ≠ key) :
    (assign es key value).lookup key1 = es.lookup key1 := by
  have hk : (key1 == key) = false := by simpa using hne
  rw [assign, List.lookup_cons, hk]
  exact lookup_filter_ne es key key1 hne

/-- The loop of `CreatePortBindings` leaves a key that belongs to none of the ports as it
was. -/
theorem lookup_bindings_other (ports : List String) (es : List (String × List PortBinding))
    (key : String) (h : ∀ p ∈ ports, key ≠ p ++ "/tcp") :
    (ports.foldl
      (fun res port => assign res (port ++ "/tcp") [{ HostIP := "localhost", HostPort := port }])
      es).lookup key = es.lookup key := by
  induction ports generalizing es with
  | nil => rfl
  | cons q rest ih =>
    rw [List.foldl_cons, ih _ (fun p hp => h p (List.mem_cons_of_mem _ hp))]
    exact lookup_assign_ne es _ key _ (h q (List.mem_cons_self _ _))

/-- The loop of `CreatePortBindings` binds the key of each port to that port on localhost. -/
theorem lookup_bindings_port (ports : List String) (es : List (String × List PortBinding))
    (p : String) (hp : p ∈ ports) :
    (ports.foldl
      (fun res port => assign res (port ++ "/tcp") [{ HostIP := "localhost", HostPort := port }])
      es).lookup (p ++ "/tcp") = some [{ HostIP := "localhost", HostPort := p }] := by
  induction ports generalizing es with
  | nil => simp at hp
  | cons q rest ih =>
    rw [List.foldl_cons]
    by_cases hrest : p ∈ rest
    · exact ih _ hrest
    · have hq : p = q := by
        rcases List.mem_cons.mp hp with h1 | h1
        · exact h1
        · exact absurd h1 hrest
      subst hq
      rw [lookup_bindings_other rest _ _
        (fun r hr e => hrest (by rw [append_tcp_inj _ _ e]; exact hr))]
      exact lookup_assign_self es _ _

/-- The keys after the assignment `res[key] = value`: `key`, and the other keys. -/
theorem keys_assign (es : List (String × List PortBinding)) (key : String)
    (value : List PortBinding) :
    (assign es key value).map Prod.fst
      = key :: (es.map Prod.fst).filter (fun k => decide (k ≠ key)) := by
  simp only [assign, List.map_cons, List.filter_map]
  rfl

/-- The assignment `res[key] = value` keeps the keys distinct. -/
theorem nodup_keys_assign (es : List (String × List PortBinding)) (key : String)
    (value : List PortBinding) (h : (es.map Prod.fst).Nodup) :
    ((assign es key value).map Prod.fst).Nodup := by
  rw [keys_assign, List.nodup_cons]
  refine ⟨fun hmem => ?_, h.filter _⟩
  have := (List.mem_filter.mp hmem).2
  simp at this

/-- The loop of `CreatePortBindings` keeps the keys distinct. -/
theorem nodup_keys_bindings (ports : List String) (es : List (String × List PortBinding))
    (h : (es.map Prod.fst).Nodup) :
    ((ports.foldl
      (fun res port => assign res (port ++ "/tcp") [{ HostIP := "localhost", HostPort := port }])
      es).map Prod.fst).Nodup := by
  induction ports generalizing es with
  | nil => exact h
  | cons q rest ih =>
    rw [List.foldl_cons]
    exact ih _ (nodup_keys_assign es _ _ h)

/-- The keys after the loop of `CreatePortBindings`: the keys of the ports, and the keys the
map had. -/
theorem mem_keys_bindings (ports : List String) (es : List (String × List PortBinding))
    (key : String) :
    key ∈ (ports.foldl
        (fun res port => assign res (port ++ "/tcp") [{ HostIP := "localhost", HostPort := port }])
        es).map Prod.fst
      ↔ (∃ p ∈ ports, key = p ++ "/tcp") ∨ key ∈ es.map Prod.fst := by
  induction ports generalizing es with
  | nil => simp
  | cons q rest ih =>
    rw [List.foldl_cons, ih, keys_assign]
    constructor
    · rintro (⟨p, hp, rfl⟩ | hmem)
      · exact Or.inl ⟨p, List.mem_cons_of_mem _ hp, rfl⟩
      · rcases List.mem_cons.mp hmem with h1 | h1
        · exact Or.inl ⟨q, List.mem_cons_self _ _, h1⟩
        · exact Or.inr (List.mem_filter.mp h1).1
    · rintro (⟨p, hp, rfl⟩ | hmem)
      · rcases List.mem_cons.mp hp with h1 | h1
        · subst h1
          exact Or.inr (List.mem_cons_self _ _)
        · exact Or.inl ⟨p, h1, rfl⟩
      · by_cases hk : key = q ++ "/tcp"
        · subst hk
          exact Or.inr (List.mem_cons_self _ _)
        · exact Or.inr (List.mem_cons_of_mem _ (List.mem_filter.mpr ⟨hmem, by simpa using hk⟩))

/-- C11: for every list of ports `CreatePortBindings` returns a map that is not nil, whose
keys are distinct and are exactly the strings `p + "/tcp"` for `p` in the list, and in which
the key `p + "/tcp"` of each port `p` of the list is bound to the one-element list holding the
binding with `HostIP` `"localhost"` and `HostPort` `p`; a key is bound exactly when it is one
of these keys; for the empty list the map is the empty map. -/
theorem CreatePortBindings_bindings (ports : List String) :
    CreatePortBindings ports ≠ .nil ∧
      (CreatePortBindings ports).keys.Nodup ∧
      (∀ key, key ∈ (CreatePortBindings ports).keys ↔ ∃ p ∈ ports, key = p ++ "/tcp") ∧
      (∀ key, (CreatePortBindings ports).get key ≠ none ↔ ∃ p ∈ ports, key = p ++ "/tcp") ∧
      (∀ p ∈ ports,
        (CreatePortBindings ports).get (p ++ "/tcp")
          = some [{ HostIP := "localhost", HostPort := p }]) ∧
      CreatePortBindings [] = .entries [] := by
  refine ⟨PortMap.noConfusion, ?_, fun key => ?_, fun key => ?_, fun p hp => ?_, rfl⟩
  · exact nodup_keys_bindings ports [] List.nodup_nil
  · simp only [CreatePortBindings, PortMap.keys]
    rw [mem_keys_bindings]
    simp
  · simp only [CreatePortBindings, PortMap.get]
    constructor
    · intro hne
      by_contra hno
      exact hne (lookup_bindings_other ports [] key
        (fun p hp e => hno ⟨p, hp, e⟩))
    · rintro ⟨p, hp, rfl⟩
      rw [lookup_bindings_port ports [] p hp]
      exact fun h => by cases h
  · exact lookup_bindings_port ports [] p hp

/-- C11, at the ports of `DefaultPortBindings`: the key `4566/tcp` is bound to port `4566` on
localhost, and `4603/tcp` to `4603`. -/
theorem CreatePortBindings_bindings_witness :
    DefaultPortBindings.get ("4566" ++ "/tcp")
        = some [{ HostIP := "localhost", HostPort := "4566" }] ∧
      DefaultPortBindings.get ("4603" ++ "/tcp")
        = some [{ HostIP := "localhost", HostPort := "4603" }] :=
  ⟨(CreatePortBindings_bindings
      ["4566", "4572", "4569", "4574", "4575", "4576", "4582", "4586", "4603", "4594", "4583",
        "4597"]).2.2.2.2.1 "4566" (by simp),
    (CreatePortBindings_bindings
      ["4566", "4572", "4569", "4574", "4575", "4576", "4582", "4586", "4603", "4594", "4583",
        "4597"]).2.2.2.2.1 "4603" (by simp)⟩

/-! ## The readiness probes (C12) -/

/-- No probe depends on what `GetDomainNamesWithContext` answers. -/
theorem ready_ignores_GetDomainNames (p : Probe) (a : Answers) (err : Option GoError) :
    p.ready { a with GetDomainNames := err } = p.ready a := by
  cases p <;> rfl

/-- `Wait` on a group whose functions all return nil. -/
theorem Wait_of_all_nil (rs : List (Option GoError)) (h : ∀ r ∈ rs, r = none) : Wait rs = none := by
  induction rs with
  | nil => rfl
  | cons r rest ih =>
    have hr : r = none := h r (List.mem_cons_self _ _)
    subst hr
    exact ih (fun x hx => h x (List.mem_cons_of_mem _ hx))

/-- C12: whatever `GetDomainNamesWithContext` answers (`err`, an error included),
`apigwClientReady` returns nil; `checkContainerReady` returns what it returns when that call
answers anything else; and when `xrayInit` and the five other calls succeed,
`checkContainerReady` returns nil, in whatever order the probes finish. -/
theorem apigwClientReady_always_nil (a : Answers) (err : Option GoError) (xrayEndpoint : String)
    (configure : Option GoError) (finished : List Probe) :
    apigwClientReady { a with GetDomainNames := err } = none ∧
      checkContainerReady xrayEndpoint configure { a with GetDomainNames := err } finished
        = checkContainerReady xrayEndpoint configure a finished ∧
      (xrayInit xrayEndpoint configure = none → a.ListTables = none →
        a.ListFunctions = none → a.ListTopics = none → a.ListQueues = none →
        a.ListBuckets = none →
        checkContainerReady xrayEndpoint configure { a with GetDomainNames := err } finished
          = none) := by
  refine ⟨rfl, ?_, fun hx h1 h2 h3 h4 h5 => ?_⟩
  · simp only [checkContainerReady, ready_ignores_GetDomainNames]
  · simp only [checkContainerReady, hx]
    apply Wait_of_all_nil
    intro r hr
    obtain ⟨p, _, rfl⟩ := List.mem_map.mp hr
    cases p
    · exact h1
    · exact h2
    · exact h3
    · exact h4
    · exact h5
    · rfl

/-- C12, at a container whose API gateway refuses the connection while the five other
services answer: `checkContainerReady` returns nil. -/
theorem apigwClientReady_always_nil_witness :
    checkContainerReady "http://localhost:4603" none
        { ({ ListTables := none, ListFunctions := none, ListTopics := none, ListQueues := none,
              ListBuckets := none, GetDomainNames := none } : Answers) with
          GetDomainNames := some (.lib "connection refused") }
        [.apigw, .s3, .dynamo, .sqs, .lambda, .sns]
      = none :=
  (apigwClientReady_always_nil
    { ListTables := none, ListFunctions := none, ListTopics := none, ListQueues := none,
      ListBuckets := none, GetDomainNames := none }
    (some (.lib "connection refused")) "http://localhost:4603" none
    [.apigw, .s3, .dynamo, .sqs, .lambda, .sns]).2.2 rfl rfl rfl rfl rfl rfl

/-! ## `NewS3BucketObject` (C13) -/

/-- C13: for every bucket name, key and content, the only request `NewS3BucketObject` issues
is a put-object request with `Bucket` the bucket name, `Key` the key and the fixed body
`Test s3 bucket object content`; the error returned is the one answered for that request; and
two calls that differ only in `content` do the same and return the same. -/
theorem NewS3BucketObject_ignores_content (PutObject : PutObjectInput → Option GoError)
    (ctx : Context) (bucketName key : String) (content content1 : List Nat) :
    (NewS3BucketObject PutObject ctx bucketName key content).1
        = [.Println ("  - Creating object for " ++ bucketName ++ " S3 Bucket for testing"),
            .PutObject
              { ACL := none
                Body := "Test s3 bucket object content"
                Bucket := bucketName
                Key := key
                Metadata := none }] ∧
      (NewS3BucketObject PutObject ctx bucketName key content).2
        = PutObject
            { ACL := none
              Body := "Test s3 bucket object content"
              Bucket := bucketName
              Key := key
              Metadata := none } ∧
      NewS3BucketObject PutObject ctx bucketName key content
        = NewS3BucketObject PutObject ctx bucketName key content1 :=
  ⟨rfl, rfl, rfl⟩

end Lokalstack
